import Mathlib

/-!
Verification development for the inventory-ui frontend.

Shallow embedding of:
* `src/utils/vendors.ts` — vendor-name normalization (`normalizeVendor`,
  `vendorAliases`);
* `src/api/client.ts` — the generic JSON `request` helper (status handling
  including the `res.json()` rejection path, Basic-auth header
  construction), the multipart upload paths (`uploadPlugin`,
  `uploadMetricsImport`) that bypass it, and the LoginPage credential-test
  fetch;
* the `usePolling` React hook — modelled as a small-step state machine over
  an explicit session state driven by events (effect mount, enable toggle,
  interval tick, manual refresh, promise settlement, unmount cleanup).

Strings are modelled with Lean `String`; JavaScript `toLowerCase` is
modelled for the ASCII range; `btoa` is implemented as standard base64 over
the string's character codes.
-/

/-! ## ASCII lower-casing (model of JS `String.prototype.toLowerCase`) -/

/-- Lower-case a single character (ASCII range, as used by the vendor data). -/
def toLowerChar (c : Char) : Char :=
  if 65 ≤ c.toNat ∧ c.toNat ≤ 90 then Char.ofNat (c.toNat + 32) else c

/-- Lower-case a whole string, character by character. -/
def toLowerStr (s : String) : String :=
  String.mk (s.data.map toLowerChar)

/-! ## `src/utils/vendors.ts` -/

/-- The `VENDOR_ALIASES` record, as its ordered list of entries. -/
def VENDOR_ALIASES : List (String × String) :=
  [("amazon", "aws"), ("google", "gcp"), ("microsoft", "azure"),
   ("vsphere", "vmware"), ("redhat", "openshift"), ("kubernetes", "openshift")]

/-- Property lookup `VENDOR_ALIASES[k]` on the record. -/
def aliasLookup (k : String) : Option String :=
  (VENDOR_ALIASES.find? (fun p => p.fst == k)).map Prod.snd

/-- `normalizeVendor(raw)`: canonical vendor key for a raw vendor string. -/
def normalizeVendor (raw : String) : String :=
  let lower := toLowerStr raw
  (aliasLookup lower).getD lower

/-- `vendorAliases(canonical)`: all raw vendor strings mapping to a key. -/
def vendorAliases (canonical : String) : List String :=
  let c := toLowerStr canonical
  c :: (VENDOR_ALIASES.filter (fun p => p.snd == c)).map Prod.fst

/-! ## base64 (model of the browser `btoa`) -/

/-- The base64 digit alphabet. -/
def B64_CHARS : List Char :=
  "ABCDEFGHIJKLMNOPQRSTUVWXYZabcdefghijklmnopqrstuvwxyz0123456789+/".data

/-- The base64 digit for a 6-bit value. -/
def b64digit (n : Nat) : Char := B64_CHARS.getD n 'A'

/-- Encode a byte sequence in base64, three bytes at a time, padding with
`=` as `btoa` does. -/
def btoaChunks : List Nat → List Char
  | [] => []
  | [a] =>
      [b64digit (a / 4), b64digit (a % 4 * 16), '=', '=']
  | [a, b] =>
      [b64digit (a / 4), b64digit (a % 4 * 16 + b / 16), b64digit (b % 16 * 4), '=']
  | a :: b :: c :: rest =>
      b64digit (a / 4) :: b64digit (a % 4 * 16 + b / 16) ::
        b64digit (b % 16 * 4 + c / 64) :: b64digit (c % 64) :: btoaChunks rest

/-- `btoa(s)`: base64 of the string's character codes. -/
def btoa (s : String) : String := String.mk (btoaChunks (s.data.map Char.toNat))

/-! ## `src/api/client.ts` — the generic `request` helper

A fetch `Response` is modelled by its status, status text, body text, and
the outcome of `res.json()` (`J` is the JSON payload type).  The helper's
outcome is `success` (carrying `none` on the 204-DELETE path, where the
TypeScript returns `undefined`) or `failure` with the thrown error's
message.  A network failure rejects the enclosing `fetch` before any
`Response` exists; the model is conditional on a response having
arrived. -/

/-- The fields of a fetch `Response` that `request` consumes.  `json` is
the outcome of `res.json()`: the parsed value, or — for an invalid or
empty body — the message of the parse error with which that promise
rejects. -/
structure Resp (J : Type) where
  status : Nat
  statusText : String
  bodyText : String
  json : Except String J

/-- `Response.ok`: status in the inclusive range 200–299. -/
def Resp.isOk {J : Type} (r : Resp J) : Bool :=
  decide (200 ≤ r.status) && decide (r.status ≤ 299)

/-- Outcome of the `request` helper: resolved value or rejection message. -/
inductive ReqResult (J : Type) where
  | success (v : Option J)
  | failure (msg : String)
deriving DecidableEq

/-- Whether the outcome is a rejection. -/
def ReqResult.isFailure {J : Type} : ReqResult J → Bool
  | .failure _ => true
  | .success _ => false

/-- The status-handling core of `request` (`src/api/client.ts` lines
15–22): DELETE+204 resolves with no value without consuming the body, any
other non-2xx status rejects with
`status + ' ' + statusText + ': ' + bodyText`, and a 2xx response returns
`res.json()` — whose own rejection (invalid or empty body) the returned
promise propagates. -/
def request {J : Type} (method : Option String) (r : Resp J) : ReqResult J :=
  if method == some "DELETE" && r.status == 204 then
    .success none
  else if !r.isOk then
    .failure (toString r.status ++ " " ++ r.statusText ++ ": " ++ r.bodyText)
  else
    match r.json with
    | .ok v => .success (some v)
    | .error msg => .failure msg

/-! ### Header construction (Basic auth, `localStorage`)

`localStorage` is modelled as a partial map from keys to strings; header
records as partial maps from header names to values. -/

/-- The single local-storage key holding the persisted credentials. -/
def CREDS_KEY : String := "inventory_creds"

/-- Headers built by `request` (lines 3–14): the caller's headers, spread
into a fresh record, with `Authorization` overwritten by
`'Basic ' + btoa(creds)` exactly when `localStorage` holds credentials. -/
def requestHeaders (optHeaders : String → Option String)
    (store : String → Option String) : String → Option String :=
  fun k =>
    match store CREDS_KEY with
    | some creds =>
        if k = "Authorization" then some ("Basic " ++ btoa creds) else optHeaders k
    | none => optHeaders k

/-- Headers built by `api.uploadPlugin` (lines 414–423): a fresh empty
record, with `Authorization` set exactly when credentials are stored. -/
def uploadPluginHeaders (store : String → Option String) : String → Option String :=
  fun k =>
    match store CREDS_KEY with
    | some creds =>
        if k = "Authorization" then some ("Basic " ++ btoa creds) else none
    | none => none

/-- Headers built by `api.uploadMetricsImport` — textually the same
construction as `uploadPlugin`. -/
def uploadMetricsImportHeaders (store : String → Option String) :
    String → Option String :=
  uploadPluginHeaders store

/-- Headers of the LoginPage credential-test fetch
(`src/unnamed/part_005` lines 216–226): `Authorization` is always
attached, built from the form's username and password — this outgoing
request never reads `localStorage` (the function takes no store). -/
def loginProbeHeaders (username password : String) : String → Option String :=
  fun k =>
    if k = "Authorization" then
      some ("Basic " ++ btoa (username ++ ":" ++ password))
    else none

/-! ## The `usePolling` hook — small-step session model

The hook's observable behaviour is captured by a state machine.  `A` is
the operation's result type, `E` the error type.  Time is in integer
milliseconds; `timer` holds the absolute time of the next scheduled tick
when the interval timer is armed.  `invocations` records, in order, the
times at which `fetchFn` was invoked; `inflight` counts calls issued but
not yet settled.  Events drive the machine:

* `mount t` — the effect body runs at time `t` (initial mount);
* `setEnabled t b` — the `enabled` dependency changes: React runs the
  previous effect's cleanup, then the effect body with the new value;
* `unmount t` — consumer disposal: the cleanup runs;
* `tick` — the armed interval timer fires (at its scheduled time),
  invoking `doFetch` directly (no `setLoading(true)`);
* `refresh t` — the returned `refresh()` callback is invoked at `t`:
  `setLoading(true)` then `doFetch()` — note the code does not gate this
  on `enabled`;
* `settle res` — one in-flight `fetchFn` promise settles with `res`
  (`.ok` = resolution, `.error` = rejection); `doFetch`'s `try/catch/
  finally` applies the state updates.  Settlement events may arrive in any
  order relative to later invocations, modelling arbitrary latency. -/

/-- Observable session state of one `usePolling` instance. -/
structure SysState (A E : Type) where
  data : Option A
  error : Option E
  loading : Bool
  enabled : Bool
  timer : Option Nat
  inflight : Nat
  invocations : List Nat
deriving DecidableEq

/-- `useState` initial values: `data = null`, `error = null`,
`loading = true`, no timer armed, nothing invoked. -/
def initState {A E : Type} (enabled : Bool) : SysState A E :=
  { data := none, error := none, loading := true, enabled := enabled,
    timer := none, inflight := 0, invocations := [] }

/-- Events driving a session. -/
inductive Ev (A E : Type) where
  | mount (t : Nat)
  | setEnabled (t : Nat) (b : Bool)
  | unmount (t : Nat)
  | tick
  | refresh (t : Nat)
  | settle (res : Except E A)

/-- Issue one call to `fetchFn` at time `t` (the synchronous start of
`doFetch`): records the invocation and one more in-flight promise. -/
def invoke {A E : Type} (s : SysState A E) (t : Nat) : SysState A E :=
  { s with invocations := s.invocations ++ [t], inflight := s.inflight + 1 }

/-- `doFetch`'s settlement handling (lines 17–27): on resolution set
`data` to the result and clear `error`; on rejection set `error` and
leave `data` unchanged; in both cases (`finally`) set `loading := false`.
No rejection escapes: the function is total into `SysState`. -/
def settleFetch {A E : Type} (s : SysState A E) (res : Except E A) : SysState A E :=
  match res with
  | .ok r => { s with data := some r, error := none, loading := false }
  | .error e => { s with error := some e, loading := false }

/-- The effect body (lines 29–40) run at time `t` with interval `T`:
nothing when `enabled` is false; otherwise `setLoading(true)`, one
immediate `doFetch()`, and `setInterval(doFetch, T)` arming the next tick
at `t + T`. -/
def effectRun {A E : Type} (T t : Nat) (s : SysState A E) : SysState A E :=
  if s.enabled then
    { invoke { s with loading := true } t with timer := some (t + T) }
  else s

/-- The effect cleanup (lines 37–39): `clearInterval` disarms the timer. -/
def cleanupRun {A E : Type} (s : SysState A E) : SysState A E :=
  { s with timer := none }

/-- One step of the session machine with interval `T`. -/
def step {A E : Type} (T : Nat) (s : SysState A E) : Ev A E → SysState A E
  | .mount t => effectRun T t s
  | .setEnabled t b => effectRun T t (cleanupRun { s with enabled := b })
  | .unmount _ => cleanupRun s
  | .tick =>
      match s.timer with
      | some tn => { invoke s tn with timer := some (tn + T) }
      | none => s
  | .refresh t => invoke { s with loading := true } t
  | .settle res =>
      if s.inflight = 0 then s
      else { settleFetch s res with inflight := s.inflight - 1 }

/-- Run a whole event trace. -/
def run {A E : Type} (T : Nat) (s : SysState A E) (evs : List (Ev A E)) :
    SysState A E :=
  evs.foldl (step T) s

/-- Is the event a `refresh()` call? -/
def Ev.isRefresh {A E : Type} : Ev A E → Bool
  | .refresh _ => true
  | _ => false

/-- Is the event an `enabled` toggle to `true`? -/
def Ev.enablesTrue {A E : Type} : Ev A E → Bool
  | .setEnabled _ true => true
  | _ => false

/-- Is the event an `enabled` toggle (either way)? -/
def Ev.isSetEnabled {A E : Type} : Ev A E → Bool
  | .setEnabled _ _ => true
  | _ => false

/-- Is the event a timer tick or a promise settlement (the only ones the
environment can still deliver after consumer disposal)? -/
def Ev.isTickOrSettle {A E : Type} : Ev A E → Bool
  | .tick => true
  | .settle _ => true
  | _ => false

/-! ## Lemmas about lower-casing and the vendor table -/

lemma toNat_ofNat_of_upper (n : Nat) (h1 : 65 ≤ n) (h2 : n ≤ 90) :
    (Char.ofNat (n + 32)).toNat = n + 32 := by
  interval_cases n <;> decide

lemma toLowerChar_idem (c : Char) : toLowerChar (toLowerChar c) = toLowerChar c := by
  unfold toLowerChar
  by_cases h : 65 ≤ c.toNat ∧ c.toNat ≤ 90
  · rw [if_pos h]
    have hn : (Char.ofNat (c.toNat + 32)).toNat = c.toNat + 32 :=
      toNat_ofNat_of_upper _ h.1 h.2
    rw [if_neg (by rw [hn]; omega)]
  · rw [if_neg h, if_neg h]

lemma toLowerStr_idem (s : String) : toLowerStr (toLowerStr s) = toLowerStr s := by
  unfold toLowerStr
  simp [List.map_map, Function.comp_def, toLowerChar_idem]

lemma vendorEntries_fact :
    ∀ p ∈ VENDOR_ALIASES, toLowerStr p.fst = p.fst ∧ aliasLookup p.fst = some p.snd := by
  decide

lemma vendorValues_fact :
    ∀ v ∈ VENDOR_ALIASES.map Prod.snd, toLowerStr v = v ∧ aliasLookup v = none := by
  decide

lemma aliasLookup_value {k v : String} (h : aliasLookup k = some v) :
    toLowerStr v = v ∧ aliasLookup v = none := by
  apply vendorValues_fact
  unfold aliasLookup at h
  cases hf : VENDOR_ALIASES.find? (fun p => p.fst == k) with
  | none => rw [hf] at h; exact Option.noConfusion h
  | some p =>
      rw [hf] at h
      obtain rfl : p.snd = v := Option.some.inj h
      exact List.mem_map_of_mem Prod.snd (List.mem_of_find?_eq_some hf)

lemma normalizeVendor_eq (x : String) :
    normalizeVendor x = (aliasLookup (toLowerStr x)).getD (toLowerStr x) := rfl

/-- C9: `normalizeVendor` is idempotent, and `vendorAliases` round-trips
with it — for every string `c`, `vendorAliases c` is non-empty, its first
element is the lower-casing of `c`, and every element normalizes to
`normalizeVendor c`. -/
theorem C9_normalize_idem_and_aliases_roundtrip :
    (∀ x, normalizeVendor (normalizeVendor x) = normalizeVendor x) ∧
    (∀ c, vendorAliases c ≠ [] ∧
      (vendorAliases c).head? = some (toLowerStr c) ∧
      ∀ s ∈ vendorAliases c, normalizeVendor s = normalizeVendor c) := by
  constructor
  · intro x
    rw [normalizeVendor_eq x]
    cases h : aliasLookup (toLowerStr x) with
    | none =>
        simp only [Option.getD_none]
        rw [normalizeVendor_eq, toLowerStr_idem, h, Option.getD_none]
    | some v =>
        simp only [Option.getD_some]
        obtain ⟨h1, h2⟩ := aliasLookup_value h
        rw [normalizeVendor_eq, h1, h2, Option.getD_none]
  · intro c
    refine ⟨by exact List.cons_ne_nil _ _, rfl, ?_⟩
    intro s hs
    have hs2 : s = toLowerStr c ∨
        s ∈ (VENDOR_ALIASES.filter (fun p => p.snd == toLowerStr c)).map Prod.fst := by
      simpa [vendorAliases] using hs
    rcases hs2 with rfl | hs2
    · rw [normalizeVendor_eq, normalizeVendor_eq c, toLowerStr_idem]
    · obtain ⟨p, hpfilter, rfl⟩ := List.mem_map.mp hs2
      have hpmem : p ∈ VENDOR_ALIASES := (List.mem_filter.mp hpfilter).1
      have hpeq : p.snd = toLowerStr c := by
        simpa using (List.mem_filter.mp hpfilter).2
      obtain ⟨hl, ha⟩ := vendorEntries_fact p hpmem
      have hvmem : p.snd ∈ VENDOR_ALIASES.map Prod.snd :=
        List.mem_map_of_mem Prod.snd hpmem
      obtain ⟨hlv, hav⟩ := vendorValues_fact _ hvmem
      rw [normalizeVendor_eq, hl, ha, normalizeVendor_eq c, ← hpeq, hav]
      simp

/-- Witness for C9 at concrete inputs: idempotence at `"Google"`, and the
alias `"amazon"` of canonical key `"AWS"` normalizing like `"AWS"`. -/
theorem C9_normalize_idem_and_aliases_roundtrip_witness :
    normalizeVendor (normalizeVendor "Google") = normalizeVendor "Google" ∧
    normalizeVendor "amazon" = normalizeVendor "AWS" :=
  ⟨C9_normalize_idem_and_aliases_roundtrip.1 "Google",
   (C9_normalize_idem_and_aliases_roundtrip.2 "AWS").2.2 "amazon" (by decide)⟩

/-! ## Theorems about the `request` helper -/

/-- C7 counterexample: a 200 response whose body is not valid JSON — the
source's `return res.json()` (`client.ts` line 22) propagates the parse
rejection, so the helper fails although the status is inside 2xx, and with
a message containing none of status, status text or body text; this
refutes the claimed "fails iff the status is outside 2xx". -/
theorem C7_counterexample_json_rejection_on_2xx :
    request (J := Nat) none
      { status := 200, statusText := "OK", bodyText := "",
        json := .error "Unexpected end of JSON input" } =
      .failure "Unexpected end of JSON input" ∧
    ¬ (∀ (m : Option String) (r : Resp Nat),
        (request m r).isFailure = true ↔ ¬(200 ≤ r.status ∧ r.status ≤ 299)) :=
  ⟨rfl, fun hall =>
    absurd (by decide : (200 : Nat) ≤ 200 ∧ (200 : Nat) ≤ 299)
      ((hall none
        { status := 200, statusText := "OK", bodyText := "",
          json := .error "Unexpected end of JSON input" }).mp rfl)⟩

/-- C7 amended: given that `fetch` resolved with a response, `request`
rejects exactly when the status is outside 2xx, or the status is inside
2xx, the DELETE-204 exception does not apply, and the body fails to parse
as JSON; a DELETE returning 204 resolves with no value (without consuming
the body); a 2xx response with a parsing body resolves with the parsed
value; a non-2xx rejection message is the concatenation of status, status
text and body text (hence contains each of them); a 2xx rejection carries
exactly the JSON parse error. -/
theorem C7_request_status_and_parse_handling {J : Type} (m : Option String)
    (r : Resp J) :
    ((request m r).isFailure = true ↔
      (¬(200 ≤ r.status ∧ r.status ≤ 299) ∨
       ((200 ≤ r.status ∧ r.status ≤ 299) ∧ ¬(m = some "DELETE" ∧ r.status = 204) ∧
        ∃ msg, r.json = .error msg))) ∧
    (m = some "DELETE" → r.status = 204 → request m r = .success none) ∧
    ((200 ≤ r.status ∧ r.status ≤ 299) → ¬(m = some "DELETE" ∧ r.status = 204) →
      ∀ v, r.json = .ok v → request m r = .success (some v)) ∧
    (¬(200 ≤ r.status ∧ r.status ≤ 299) → ∀ msg, request m r = .failure msg →
      msg = toString r.status ++ " " ++ r.statusText ++ ": " ++ r.bodyText) ∧
    ((200 ≤ r.status ∧ r.status ≤ 299) → ∀ msg, request m r = .failure msg →
      r.json = .error msg) := by
  have hok : (r.isOk = true) ↔ (200 ≤ r.status ∧ r.status ≤ 299) := by
    simp [Resp.isOk]
  refine ⟨?_, ?_, ?_, ?_, ?_⟩
  · by_cases hd : (m == some "DELETE" && r.status == 204) = true
    · have hd2 : m = some "DELETE" ∧ r.status = 204 := by simpa using hd
      have hreq : request m r = .success none := by simp [request, hd]
      rw [hreq]
      constructor
      · intro hfail
        simp [ReqResult.isFailure] at hfail
      · rintro (hrange | ⟨_, hne, _⟩)
        · have h204 := hd2.2
          exact absurd (by omega : 200 ≤ r.status ∧ r.status ≤ 299) hrange
        · exact absurd hd2 hne
    · have hnd : ¬(m = some "DELETE" ∧ r.status = 204) := fun hc =>
        hd (by simp [hc.1, hc.2])
      by_cases ho : r.isOk = true
      · have hrange := hok.mp ho
        cases hj : r.json with
        | ok v =>
            have hreq : request m r = .success (some v) := by
              simp [request, hd, ho, hj]
            rw [hreq]
            constructor
            · intro hfail
              simp [ReqResult.isFailure] at hfail
            · rintro (hr | ⟨_, _, msg, hmsg⟩)
              · exact absurd hrange hr
              · exact Except.noConfusion hmsg
        | error msg =>
            have hreq : request m r = .failure msg := by
              simp [request, hd, ho, hj]
            rw [hreq]
            exact ⟨fun _ => Or.inr ⟨hrange, hnd, msg, rfl⟩, fun _ => rfl⟩
      · have ho2 : r.isOk = false := by
          cases hof : r.isOk with
          | false => rfl
          | true => exact absurd hof ho
        have hrange : ¬(200 ≤ r.status ∧ r.status ≤ 299) := fun hr => ho (hok.mpr hr)
        have hreq : request m r =
            .failure (toString r.status ++ " " ++ r.statusText ++ ": " ++ r.bodyText) := by
          simp [request, hd, ho2]
        rw [hreq]
        exact ⟨fun _ => Or.inl hrange, fun _ => rfl⟩
  · intro hm h204
    simp [request, hm, h204]
  · intro hr hnd v hj
    have hd : (m == some "DELETE" && r.status == 204) = false := by
      cases hmd : (m == some "DELETE" && r.status == 204) with
      | false => rfl
      | true => exact absurd (by simpa using hmd) hnd
    have ho : r.isOk = true := hok.mpr hr
    simp [request, hd, ho, hj]
  · intro hrange msg h
    have ho2 : r.isOk = false := by
      cases hof : r.isOk with
      | false => rfl
      | true => exact absurd (hok.mp hof) hrange
    unfold request at h
    by_cases hd : (m == some "DELETE" && r.status == 204) = true
    · have hd2 : m = some "DELETE" ∧ r.status = 204 := by simpa using hd
      have h204 := hd2.2
      exact absurd (by omega : 200 ≤ r.status ∧ r.status ≤ 299) hrange
    · rw [if_neg hd, ho2] at h
      simp at h
      exact h.symm
  · intro hr msg h
    have ho : r.isOk = true := hok.mpr hr
    unfold request at h
    by_cases hd : (m == some "DELETE" && r.status == 204) = true
    · rw [if_pos hd] at h
      exact ReqResult.noConfusion h
    · rw [if_neg hd, ho] at h
      simp at h
      cases hj : r.json with
      | ok v =>
          rw [hj] at h
          simp at h
      | error m2 =>
          rw [hj] at h
          simp at h
          rw [h]

/-- Witness for the amended C7: a 204 DELETE resolves with no value even
with an unparseable body, a 404 rejects, a 200 with a parsing body
resolves with it, and a 200 with an empty body rejects. -/
theorem C7_request_status_and_parse_handling_witness :
    request (J := Nat) (some "DELETE")
      { status := 204, statusText := "No Content", bodyText := "",
        json := .error "Unexpected end of JSON input" } = .success none ∧
    (request (J := Nat) none
      { status := 404, statusText := "Not Found", bodyText := "gone",
        json := .error "x" }).isFailure = true ∧
    request (J := Nat) none
      { status := 200, statusText := "OK", bodyText := "[1]", json := .ok 1 } =
      .success (some 1) ∧
    (request (J := Nat) none
      { status := 200, statusText := "OK", bodyText := "",
        json := .error "Unexpected end of JSON input" }).isFailure = true :=
  ⟨(C7_request_status_and_parse_handling (J := Nat) (some "DELETE")
      { status := 204, statusText := "No Content", bodyText := "",
        json := .error "Unexpected end of JSON input" }).2.1 rfl rfl,
   ((C7_request_status_and_parse_handling (J := Nat) none
      { status := 404, statusText := "Not Found", bodyText := "gone",
        json := .error "x" }).1).mpr (Or.inl (by decide)),
   (C7_request_status_and_parse_handling (J := Nat) none
      { status := 200, statusText := "OK", bodyText := "[1]",
        json := .ok 1 }).2.2.1 (by decide) (by decide) 1 rfl,
   ((C7_request_status_and_parse_handling (J := Nat) none
      { status := 200, statusText := "OK", bodyText := "",
        json := .error "Unexpected end of JSON input" }).1).mpr
      (Or.inr ⟨by decide, by decide, "Unexpected end of JSON input", rfl⟩)⟩

/-- C8 counterexample: the LoginPage credential probe is a live outgoing
API request (to `/api/inventory/v1/providers/`, rendered whenever the user
is unauthenticated — i.e. exactly when `inventory_creds` is absent) whose
`Authorization` header is built from the form fields; its header
construction reads no store at all, so an `Authorization` header is
attached while the key is absent — refuting the claim's universal over
every outgoing API request. -/
theorem C8_counterexample_login_probe :
    loginProbeHeaders "admin" "secret" "Authorization" =
      some "Basic YWRtaW46c2VjcmV0" ∧
    ¬ (∀ u p : String, loginProbeHeaders u p "Authorization" = none) :=
  ⟨by decide, fun hall => absurd (hall "admin" "secret") (by decide)⟩

/-- C8 amended: the API-client request paths — the generic JSON helper and
both multipart upload paths — read credentials from the single key
`inventory_creds`; exactly when the key is present, each carries
`Authorization: Basic <base64 creds>`; when absent, `request` leaves the
caller's headers untouched and the upload paths send no `Authorization`
header.  The LoginPage credential probe, by contrast, always attaches
`Basic <base64 (username:password)>` built from the form fields, without
reading the key. -/
theorem C8_basic_auth_header (store optHeaders : String → Option String) :
    (∀ c, store CREDS_KEY = some c →
        requestHeaders optHeaders store "Authorization" = some ("Basic " ++ btoa c) ∧
        uploadPluginHeaders store "Authorization" = some ("Basic " ++ btoa c) ∧
        uploadMetricsImportHeaders store "Authorization" = some ("Basic " ++ btoa c)) ∧
    (store CREDS_KEY = none →
        (∀ k, requestHeaders optHeaders store k = optHeaders k) ∧
        (∀ k, uploadPluginHeaders store k = none) ∧
        (∀ k, uploadMetricsImportHeaders store k = none)) ∧
    (∀ u p, loginProbeHeaders u p "Authorization" =
        some ("Basic " ++ btoa (u ++ ":" ++ p))) := by
  refine ⟨?_, ?_, ?_⟩
  · intro c hc
    refine ⟨?_, ?_, ?_⟩ <;>
      simp [requestHeaders, uploadPluginHeaders, uploadMetricsImportHeaders, hc]
  · intro hc
    refine ⟨fun k => ?_, fun k => ?_, fun k => ?_⟩ <;>
      simp [requestHeaders, uploadPluginHeaders, uploadMetricsImportHeaders, hc]
  · intro u p
    simp [loginProbeHeaders]

/-- Witness for the amended C8: with stored credentials `admin:admin` the
client header is the expected base64 form; with an empty store the upload
path sends nothing while the login probe still attaches a header. -/
theorem C8_basic_auth_header_witness :
    requestHeaders (fun _ => none)
      (fun k => if k = "inventory_creds" then some "admin:admin" else none)
      "Authorization" = some "Basic YWRtaW46YWRtaW4=" ∧
    uploadPluginHeaders (fun _ => none) "Authorization" = none ∧
    loginProbeHeaders "alice" "pw" "Authorization" =
      some ("Basic " ++ btoa ("alice" ++ ":" ++ "pw")) := by
  refine ⟨?_, ?_, ?_⟩
  · have h := (C8_basic_auth_header
      (fun k => if k = "inventory_creds" then some "admin:admin" else none)
      (fun _ => none)).1 "admin:admin" (by simp [CREDS_KEY])
    rw [h.1]
    decide
  · exact ((C8_basic_auth_header (fun _ => none) (fun _ => none)).2.1 rfl).2.1
      "Authorization"
  · exact (C8_basic_auth_header (fun _ => none) (fun _ => none)).2.2 "alice" "pw"

/-! ## Lemmas and theorems about the `usePolling` session machine -/

lemma run_cons {A E : Type} (T : Nat) (s : SysState A E) (e : Ev A E)
    (evs : List (Ev A E)) : run T s (e :: evs) = run T (step T s e) evs := rfl

lemma run_append {A E : Type} (T : Nat) (s : SysState A E)
    (l1 l2 : List (Ev A E)) : run T s (l1 ++ l2) = run T (run T s l1) l2 := by
  simp [run]

/-- From a state whose timer is armed for `tn`, `k` consecutive ticks
invoke at `tn, tn + T, …, tn + (k-1)T` and leave the timer armed for
`tn + kT`. -/
lemma run_ticks_armed {A E : Type} (T : Nat) :
    ∀ (k : Nat) (s : SysState A E) (tn : Nat), s.timer = some tn →
      (run T s (List.replicate k .tick)).invocations =
        s.invocations ++ (List.range k).map (fun i => tn + i * T) ∧
      (run T s (List.replicate k .tick)).timer = some (tn + k * T) := by
  intro k
  induction k with
  | zero => intro s tn h; simp [run, h]
  | succ k ih =>
      intro s tn h
      rw [List.replicate_succ', run_append]
      obtain ⟨h1, h2⟩ := ih s tn h
      constructor
      · show (step T (run T s (List.replicate k .tick)) .tick).invocations = _
        simp [step, h2, invoke, h1, List.range_succ]
      · show (step T (run T s (List.replicate k .tick)) .tick).timer = _
        have harith : tn + k * T + T = tn + (k + 1) * T := by ring
        simp [step, h2, invoke, harith]

/-- C1: when an in-flight call settles — on resolution `data` is set to
the result and `error` cleared; on rejection `error` is set and `data`
left untouched (a stored success survives later failures); `loading`
becomes false in both cases.  The settlement handler is a total function
into `SysState`: a rejection only updates state and is never re-thrown to
the hook's consumer. -/
theorem C1_settle_semantics {A E : Type} (T : Nat) (s : SysState A E)
    (h : 0 < s.inflight) (r : A) (e : E) :
    (step T s (.settle (.ok r))).data = some r ∧
    (step T s (.settle (.ok r))).error = none ∧
    (step T s (.settle (.ok r))).loading = false ∧
    (step T s (.settle (.error e))).error = some e ∧
    (step T s (.settle (.error e))).data = s.data ∧
    (step T s (.settle (.error e))).loading = false := by
  have h0 : ¬ s.inflight = 0 := by omega
  simp [step, settleFetch, h0]

/-- Witness for C1: one in-flight call resolving with `5` stores `5`. -/
theorem C1_settle_semantics_witness :
    (step 100
      ({ data := none, error := none, loading := true, enabled := true,
         timer := some 100, inflight := 1, invocations := [0] } : SysState Nat String)
      (.settle (.ok 5))).data = some 5 :=
  (C1_settle_semantics 100
    { data := none, error := none, loading := true, enabled := true,
      timer := some 100, inflight := 1, invocations := [0] }
    (by decide) 5 "boom").1

/-- C10: a session starts with `data = null`, `error = null` and
`loading = true`; a session created disabled, on which `refresh` is never
called and `enabled` never changes, keeps exactly that state — in
particular it reports `loading = true` forever. -/
theorem C10_disabled_session_stays_initial {A E : Type} (T : Nat)
    (evs : List (Ev A E))
    (h : ∀ e ∈ evs, e.isRefresh = false ∧ e.isSetEnabled = false) :
    run T (initState false) evs = initState false ∧
    (run T (initState false) evs).data = (none : Option A) ∧
    (run T (initState false) evs).error = (none : Option E) ∧
    (run T (initState false) evs).loading = true := by
  have key : ∀ evs2 : List (Ev A E),
      (∀ e ∈ evs2, e.isRefresh = false ∧ e.isSetEnabled = false) →
      run T (initState false : SysState A E) evs2 = initState false := by
    intro evs2
    induction evs2 with
    | nil => intro _; rfl
    | cons e rest ih =>
        intro h2
        have he := h2 e (List.mem_cons_self e rest)
        have hstep : step T (initState false : SysState A E) e = initState false := by
          cases e with
          | mount t => rfl
          | setEnabled t b => simp [Ev.isSetEnabled] at he
          | unmount t => rfl
          | tick => rfl
          | refresh t => simp [Ev.isRefresh] at he
          | settle res => rfl
        rw [run_cons, hstep]
        exact ih (fun x hx => h2 x (List.mem_cons_of_mem e hx))
  have k := key evs h
  exact ⟨k, by rw [k]; rfl, by rw [k]; rfl, by rw [k]; rfl⟩

/-- Witness for C10: a disabled session survives a mount, a stray tick, a
stray settlement and an unmount in its initial state. -/
theorem C10_disabled_session_stays_initial_witness :
    run 50 (initState false : SysState Nat Nat)
      [.mount 0, .tick, .settle (.ok 3), .unmount 7] = initState false :=
  (C10_disabled_session_stays_initial 50
    [.mount 0, .tick, .settle (.ok 3), .unmount 7] (by decide)).1

/-- C2 counterexample: `refresh` is not gated on `enabled` in the code
(`usePolling` lines 42–45), so a disabled session on which `refresh()` is
called at time 5 records one invocation — refuting the claim that no
invocation can occur, even via `refresh`, while `enabled` is false. -/
theorem C2_counterexample_refresh_while_disabled :
    (run 100 (initState false : SysState Nat Nat) [.refresh 5]).invocations = [5] ∧
    ¬ (∀ evs : List (Ev Nat Nat), (∀ e ∈ evs, e.isSetEnabled = false) →
        (run 100 (initState false : SysState Nat Nat) evs).invocations = []) :=
  ⟨rfl, fun hall => absurd (hall [.refresh 5] (by decide)) (by decide)⟩

/-- C2 amended: while `enabled` is false no invocation occurs through the
effect or the schedule — toggling to disabled always disarms the timer,
and from any disabled state with no armed timer, any trace free of
`refresh` calls and of re-enabling adds no invocations and keeps the
session disabled with no timer.  (`refresh()`, however, does invoke the
operation even while disabled.) -/
theorem C2_disabled_no_scheduled_invocations {A E : Type} (T : Nat) :
    (∀ (s : SysState A E) (t : Nat), (step T s (.setEnabled t false)).timer = none) ∧
    (∀ (s : SysState A E) (evs : List (Ev A E)),
      s.enabled = false → s.timer = none →
      (∀ e ∈ evs, e.isRefresh = false ∧ e.enablesTrue = false) →
      (run T s evs).invocations = s.invocations ∧
      (run T s evs).enabled = false ∧ (run T s evs).timer = none) := by
  constructor
  · intro s t
    simp [step, effectRun, cleanupRun]
  · intro s evs
    induction evs generalizing s with
    | nil => intro h1 h2 _; exact ⟨rfl, h1, h2⟩
    | cons e rest ih =>
        intro h1 h2 h3
        have he := h3 e (List.mem_cons_self e rest)
        have hrest := fun x hx => h3 x (List.mem_cons_of_mem e hx)
        rw [run_cons]
        have hstep : (step T s e).invocations = s.invocations ∧
            (step T s e).enabled = false ∧ (step T s e).timer = none := by
          cases e with
          | mount t => simp [step, effectRun, h1, h2]
          | setEnabled t b =>
              have hb : b = false := by
                cases b with
                | false => rfl
                | true => simp [Ev.enablesTrue] at he
              subst hb
              simp [step, effectRun, cleanupRun]
          | unmount t => simp [step, cleanupRun, h1]
          | tick => simp [step, h2, h1]
          | refresh t => simp [Ev.isRefresh] at he
          | settle res =>
              cases res with
              | ok r =>
                  by_cases h0 : s.inflight = 0
                  · simp [step, h0, h1, h2]
                  · simp [step, h0, settleFetch, h1, h2]
              | error e2 =>
                  by_cases h0 : s.inflight = 0
                  · simp [step, h0, h1, h2]
                  · simp [step, h0, settleFetch, h1, h2]
        obtain ⟨hi, hen, htm⟩ := hstep
        obtain ⟨ri, ren, rtm⟩ := ih (step T s e) hen htm hrest
        exact ⟨by rw [ri, hi], ren, rtm⟩

/-- Witness for the amended C2: a disabled session sees no invocation
through a mount, a stray tick, a re-toggle to disabled and an unmount. -/
theorem C2_disabled_no_scheduled_invocations_witness :
    (run 100 (initState false : SysState Nat Nat)
      [.mount 3, .tick, .setEnabled 7 false, .unmount 9]).invocations = [] :=
  ((C2_disabled_no_scheduled_invocations 100).2 (initState false)
    [.mount 3, .tick, .setEnabled 7 false, .unmount 9] rfl rfl (by decide)).1

/-- C3: mounting an enabled session sets `loading := true` and invokes the
operation once immediately at mount time `t` (before any interval
elapses); thereafter the schedule fires every `T` milliseconds — after `k`
ticks the invocation times are exactly `t, t + T, …, t + kT`, with the
next tick armed for `t + (k+1)T` (indefinitely, until torn down). -/
theorem C3_immediate_then_periodic {A E : Type} (T t k : Nat) :
    (step T (initState true : SysState A E) (.mount t)).loading = true ∧
    (step T (initState true : SysState A E) (.mount t)).invocations = [t] ∧
    (step T (initState true : SysState A E) (.mount t)).timer = some (t + T) ∧
    (run T (step T (initState true : SysState A E) (.mount t))
        (List.replicate k .tick)).invocations =
      (List.range (k + 1)).map (fun i => t + i * T) ∧
    (run T (step T (initState true : SysState A E) (.mount t))
        (List.replicate k .tick)).timer = some (t + (k + 1) * T) := by
  obtain ⟨h1, h2⟩ := run_ticks_armed T k
    (step T (initState true : SysState A E) (.mount t)) (t + T) rfl
  refine ⟨rfl, rfl, rfl, ?_, ?_⟩
  · rw [h1]
    have hmap : (List.range (k + 1)).map (fun i => t + i * T) =
        t :: (List.range k).map (fun i => t + T + i * T) := by
      rw [List.range_succ_eq_map, List.map_cons, List.map_map]
      refine congrArg₂ _ (by simp) (List.map_congr_left fun a _ => ?_)
      show t + (a + 1) * T = t + T + a * T
      ring
    rw [hmap]
    rfl
  · rw [h2]
    have harith : t + T + k * T = t + (k + 1) * T := by ring
    rw [harith]

/-- C4: `refresh()` sets `loading := true`, adds exactly one extra
invocation at its call time, and leaves the armed interval timer
untouched — with the timer armed for `tn`, the `k` ticks that follow fire
at exactly the same times `tn, tn + T, …` with or without the refresh. -/
theorem C4_refresh_additive {A E : Type} (T t : Nat) (s : SysState A E) :
    (step T s (.refresh t)).loading = true ∧
    (step T s (.refresh t)).invocations = s.invocations ++ [t] ∧
    (step T s (.refresh t)).timer = s.timer ∧
    (step T s (.refresh t)).enabled = s.enabled ∧
    (∀ tn k, s.timer = some tn →
      (run T (step T s (.refresh t)) (List.replicate k .tick)).invocations =
        s.invocations ++ [t] ++ (List.range k).map (fun i => tn + i * T) ∧
      (run T s (List.replicate k .tick)).invocations =
        s.invocations ++ (List.range k).map (fun i => tn + i * T)) := by
  refine ⟨rfl, rfl, rfl, rfl, ?_⟩
  intro tn k h
  obtain ⟨h1, _⟩ := run_ticks_armed T k (step T s (.refresh t)) tn h
  obtain ⟨h2, _⟩ := run_ticks_armed T k s tn h
  exact ⟨by rw [h1]; simp [step, invoke], h2⟩

/-- Witness for C4: a refresh at time 5 between ticks armed for 42 adds
one invocation and the following two ticks still fire at 42 and 52. -/
theorem C4_refresh_additive_witness :
    (run 10
      (step 10
        ({ data := none, error := none, loading := false, enabled := true,
           timer := some 42, inflight := 1, invocations := [2] } : SysState Nat Nat)
        (.refresh 5))
      (List.replicate 2 .tick)).invocations = [2, 5, 42, 52] := by
  have h := ((C4_refresh_additive 10 5
    ({ data := none, error := none, loading := false, enabled := true,
       timer := some 42, inflight := 1, invocations := [2] } :
      SysState Nat Nat)).2.2.2.2 42 2 rfl).1
  rw [h]
  decide

/-- With the timer disarmed, any stream of timer ticks and settlements
leaves the invocation list unchanged and the timer disarmed. -/
lemma run_disarmed_no_invocations {A E : Type} (T : Nat) :
    ∀ (evs : List (Ev A E)) (s : SysState A E), s.timer = none →
      (∀ e ∈ evs, e.isTickOrSettle = true) →
      (run T s evs).invocations = s.invocations ∧ (run T s evs).timer = none := by
  intro evs
  induction evs with
  | nil => intro s h _; exact ⟨rfl, h⟩
  | cons e rest ih =>
      intro s h he
      have h1 := he e (List.mem_cons_self e rest)
      have hrest := fun x hx => he x (List.mem_cons_of_mem e hx)
      rw [run_cons]
      have hstep : (step T s e).invocations = s.invocations ∧
          (step T s e).timer = none := by
        cases e with
        | tick => simp [step, h]
        | settle res =>
            cases res with
            | ok r =>
                by_cases h0 : s.inflight = 0
                · simp [step, h0, h]
                · simp [step, h0, settleFetch, h]
            | error e2 =>
                by_cases h0 : s.inflight = 0
                · simp [step, h0, h]
                · simp [step, h0, settleFetch, h]
        | mount t => simp [Ev.isTickOrSettle] at h1
        | setEnabled t b => simp [Ev.isTickOrSettle] at h1
        | unmount t => simp [Ev.isTickOrSettle] at h1
        | refresh t => simp [Ev.isTickOrSettle] at h1
      obtain ⟨hi, ht⟩ := hstep
      obtain ⟨ri, rt⟩ := ih (step T s e) ht hrest
      exact ⟨by rw [ri, hi], rt⟩

/-- C5: disposal (`unmount`) and disabling both disarm the schedule, and
from that point any stream of timer ticks and settlements of calls that
were still in flight produces zero further invocations, at any later
time — no dangling timers. -/
theorem C5_teardown_no_further_invocations {A E : Type} (T : Nat)
    (s : SysState A E) (t : Nat) (evs : List (Ev A E))
    (h : ∀ e ∈ evs, e.isTickOrSettle = true) :
    (step T s (.unmount t)).timer = none ∧
    (step T s (.setEnabled t false)).timer = none ∧
    (run T (step T s (.unmount t)) evs).invocations = s.invocations ∧
    (run T (step T s (.setEnabled t false)) evs).invocations = s.invocations := by
  have hs : (step T s (.setEnabled t false)).timer = none := by
    simp [step, effectRun, cleanupRun]
  have hi : (step T s (.setEnabled t false)).invocations = s.invocations := by
    simp [step, effectRun, cleanupRun]
  refine ⟨rfl, hs, ?_, ?_⟩
  · exact (run_disarmed_no_invocations T evs _ rfl h).1
  · obtain ⟨ri, _⟩ := run_disarmed_no_invocations T evs _ hs h
    rw [ri, hi]

/-- Witness for C5: unmounting with a call in flight, two stray ticks and
the in-flight settlement add no invocations. -/
theorem C5_teardown_no_further_invocations_witness :
    (run 10
      (step 10
        ({ data := some 1, error := none, loading := true, enabled := true,
           timer := some 20, inflight := 1, invocations := [0, 10] } : SysState Nat Nat)
        (.unmount 15))
      [.tick, .settle (.ok 9), .tick]).invocations = [0, 10] :=
  (C5_teardown_no_further_invocations 10
    ({ data := some 1, error := none, loading := true, enabled := true,
       timer := some 20, inflight := 1, invocations := [0, 10] } : SysState Nat Nat)
    15 [.tick, .settle (.ok 9), .tick] (by decide)).2.2.1

/-- C6: the next tick is armed for `tn + T` at the moment the call is
*issued* (the tick step never waits for completion, and never consults the
in-flight count, so a slow call overlaps the next one — `inflight` grows);
settling never re-arms or shifts the timer; and when two or more calls are
in flight the *last* settlement determines the exposed `data`/`error` —
the settle step carries no sequence-number guard that could discard a
stale completion. -/
theorem C6_overlap_last_settle_wins {A E : Type} (T : Nat) (s : SysState A E)
    (tn : Nat) (h : s.timer = some tn) :
    (step T s .tick).invocations = s.invocations ++ [tn] ∧
    (step T s .tick).timer = some (tn + T) ∧
    (step T s .tick).inflight = s.inflight + 1 ∧
    (∀ r : Except E A, (step T s (.settle r)).timer = s.timer) ∧
    (∀ r1 r2 : Except E A, 2 ≤ s.inflight →
      (∀ b : A, r2 = .ok b →
          (run T s [.settle r1, .settle r2]).data = some b ∧
          (run T s [.settle r1, .settle r2]).error = none) ∧
      (∀ e2 : E, r2 = .error e2 →
          (run T s [.settle r1, .settle r2]).error = some e2)) := by
  refine ⟨by simp [step, h, invoke], by simp [step, h, invoke],
    by simp [step, h, invoke], ?_, ?_⟩
  · intro r
    by_cases h0 : s.inflight = 0
    · simp [step, h0]
    · cases r <;> simp [step, h0, settleFetch]
  · intro r1 r2 h2
    have h0 : ¬ s.inflight = 0 := by omega
    have h0b : ¬ (s.inflight - 1 = 0) := by omega
    constructor
    · rintro b rfl
      have hrun : run T s [.settle r1, .settle (.ok b)] =
          step T (step T s (.settle r1)) (.settle (.ok b)) := rfl
      rw [hrun]
      cases r1 <;> constructor <;> simp [step, h0, h0b, settleFetch]
    · rintro e2 rfl
      have hrun : run T s [.settle r1, .settle (.error e2)] =
          step T (step T s (.settle r1)) (.settle (.error e2)) := rfl
      rw [hrun]
      cases r1 <;> simp [step, h0, h0b, settleFetch]

/-- Witness for C6: timer armed for 30 with two calls in flight — the tick
still fires at 30, and a failure settling before a success leaves the
success's data exposed. -/
theorem C6_overlap_last_settle_wins_witness :
    (run 10
      ({ data := none, error := none, loading := true, enabled := true,
         timer := some 30, inflight := 2, invocations := [10, 20] } : SysState Nat Nat)
      [.settle (.error 7), .settle (.ok 4)]).data = some 4 :=
  ((((C6_overlap_last_settle_wins 10
      ({ data := none, error := none, loading := true, enabled := true,
         timer := some 30, inflight := 2, invocations := [10, 20] } : SysState Nat Nat)
      30 rfl).2.2.2.2 (.error 7) (.ok 4) (by decide)).1) 4 rfl).1

